import Mathlib

/-!
# MemberSolarSystem (src/main.js): orbit update, hover and click logic

A shallow embedding of the logical core of the class `MemberSolarSystem`.

* Numbers are elements of an arbitrary linearly ordered field `K` (the exact
  rationals or reals); `Math.cos`, `Math.sin`, `Math.PI` and `Math.random`
  belong to the JavaScript runtime and are taken as parameters.
* A `THREE.Mesh` built for a member is a `Planet`; object identity of a planet
  is its index in `this.memberPlanets`, so `this.hoveredPlanet` and
  `label.planet` hold indices.
* The result of `raycaster.intersectObjects(this.memberPlanets)` is a list of
  planet indices, nearest first; `clock.getDelta()` is the argument `delta`.
* `console.log` in `onClick` is recorded as the list of emitted links.
* Where rounding decides a property, the expression is evaluated again in
  IEEE 754 binary64, the arithmetic of JavaScript numbers: `Double` and
  `speed64` model the quotient `0.1 / member.distance` of `createScene`.
-/

namespace MemberSolarSystem

/-- Three components of a `THREE.Vector3` (also used for `scale`). -/
structure Vector3 (K : Type) where
  x : K
  y : K
  z : K
deriving DecidableEq

/-- Two components of a `THREE.Vector2` (`this.mouse`). -/
structure Vector2 (K : Type) where
  x : K
  y : K
deriving DecidableEq

/-- One entry of the `MEMBERS` table; `link` may be absent in a descriptor. -/
structure Member (K : Type) where
  name : String
  color : Nat
  distance : K
  size : K
  link : Option String
deriving DecidableEq

/-- The object stored in `planet.userData` by `createScene`. -/
structure UserData (K : Type) where
  link : Option String
  angle : K
  distance : K
  speed : K
deriving DecidableEq

/-- The fields of a member planet mesh that the class reads or writes:
`position`, `scale`, `rotation.y`, `material.emissive` (as a hex value) and
`userData`. -/
structure Planet (K : Type) where
  position : Vector3 K
  scale : Vector3 K
  rotationY : K
  emissive : Nat
  userData : UserData K
deriving DecidableEq

/-- An entry `{ textMesh, planet }` of `this.labels`: the position of the text
mesh and the index of the planet it is bound to. -/
structure Label (K : Type) where
  textMeshPosition : Vector3 K
  planet : Nat
deriving DecidableEq

/-- The mutable fields of a `MemberSolarSystem` instance. -/
structure Scene (K : Type) where
  mouse : Vector2 K
  labels : List (Label K)
  hoveredPlanet : Option Nat
  memberPlanets : List (Planet K)
deriving DecidableEq

/-- The fields of a mouse event read by `onMouseMove`. -/
structure MouseEvent (K : Type) where
  clientX : K
  clientY : K

/-- The fields of `window` read by `onMouseMove`. -/
structure Window (K : Type) where
  innerWidth : K
  innerHeight : K

/-- A non-negative JavaScript number (IEEE 754 binary64): `finite mant expo`
is `mant * 2 ^ expo` in canonical form (`expo = -1074` and `mant < 2 ^ 52` for
zero and subnormals, `2 ^ 52 ≤ mant < 2 ^ 53` and `-1074 ≤ expo ≤ 971` for
normal numbers), or `Infinity`, or `NaN`. Negative numbers are left out: the
distances and the constant `0.1` are positive. -/
inductive Double
  | finite (mant : Nat) (expo : Int)
  | infinity
  | nan
deriving DecidableEq

/-- The integer nearest to `num / den`, ties to even. -/
def Double.roundHalfEven (num den : Nat) : Nat :=
  let q := num / den
  let r := num % den
  if 2 * r < den then q
  else if den < 2 * r then q + 1
  else if q % 2 = 0 then q else q + 1

/-- Halving `n` until it is below 2, at most `fuel` times, and counting. -/
def Double.log2Aux : Nat → Nat → Nat
  | 0, _ => 0
  | fuel + 1, n => if n < 2 then 0 else Double.log2Aux fuel (n / 2) + 1

/-- The number `b` with `2 ^ b ≤ n < 2 ^ (b + 1)`, for `n > 0`. -/
def Double.log2 (n : Nat) : Nat := Double.log2Aux n n

/-- The integer `e` with `2 ^ e ≤ n / d < 2 ^ (e + 1)`, for `n, d > 0`. -/
def Double.floorLog2 (n d : Nat) : Int :=
  let c : Int := (Double.log2 n : Int) - (Double.log2 d : Int)
  if d * 2 ^ Double.log2 n ≤ n * 2 ^ Double.log2 d then c else c - 1

/-- The binary64 number nearest to `(n / d) * 2 ^ k` for `d > 0`, ties to
even: 53 significant bits, gradual underflow at `2 ^ (-1074)`, and `Infinity`
from `2 ^ 1024` on. -/
def Double.roundQuot (n d : Nat) (k : Int) : Double :=
  if n = 0 then Double.finite 0 (-1074)
  else
    let e := Double.floorLog2 n d + k
    let q := max (e - 52) (-1074)
    let s := k - q
    let m :=
      if 0 ≤ s then Double.roundHalfEven (n * 2 ^ s.toNat) d
      else Double.roundHalfEven n (d * 2 ^ (-s).toNat)
    let r : Nat × Int := if m = 2 ^ 53 then (2 ^ 52, q + 1) else (m, q)
    if 971 < r.2 then Double.infinity else Double.finite r.1 r.2

/-- The value of the decimal literal `n * 10 ^ (-e)`, as in `0.1` or `4`. -/
def Double.ofDecimal (n e : Nat) : Double := Double.roundQuot n (10 ^ e) 0

/-- The operator `/` on non-negative numbers. -/
def Double.div : Double → Double → Double
  | Double.nan, _ => Double.nan
  | _, Double.nan => Double.nan
  | Double.infinity, Double.infinity => Double.nan
  | Double.infinity, Double.finite _ _ => Double.infinity
  | Double.finite _ _, Double.infinity => Double.finite 0 (-1074)
  | Double.finite mx ex, Double.finite my ey =>
    if my = 0 then (if mx = 0 then Double.nan else Double.infinity)
    else Double.roundQuot mx my (ex - ey)

/-- The operator `<` on non-negative numbers. -/
def Double.lt : Double → Double → Bool
  | Double.finite mx ex, Double.finite my ey => ex < ey || (ex == ey && mx < my)
  | Double.finite _ _, Double.infinity => true
  | _, _ => false

/-- The initialiser `speed: 0.1 / member.distance` of `createScene`, evaluated
as JavaScript does, in binary64 arithmetic. -/
def speed64 (distance : Double) : Double :=
  Double.div (Double.ofDecimal 1 1) distance

section Defs

variable {K : Type} [LinearOrderedField K]

/-- The constant table `MEMBERS` of `createScene`. -/
def MEMBERS : List (Member K) :=
  [ { name := "President", color := 0xff0000, distance := 4, size := 0.7,
      link := some "/president" },
    { name := "Vice President", color := 0x00ff00, distance := 5, size := 0.6,
      link := some "/vice-president" },
    { name := "Secretary", color := 0x0000ff, distance := 6, size := 0.6,
      link := some "/secretary" },
    { name := "Treasurer", color := 0xffff00, distance := 7, size := 0.6,
      link := some "/treasurer" } ]

/-- Body of the `MEMBERS.map` callback of `createScene`; `random` is the value
returned by `Math.random()`. A fresh mesh has position `(0, 0, 0)`, scale
`(1, 1, 1)`, rotation `0` and a material whose emissive colour is black. -/
def buildPlanet (cos sin : K → K) (pi : K) (member : Member K) (random : K) :
    Planet K :=
  let angle := random * pi * 2
  { position := { x := cos angle * member.distance,
                  y := sin angle * member.distance,
                  z := 0 }
    scale := { x := 1, y := 1, z := 1 }
    rotationY := 0
    emissive := 0x000000
    userData := { link := member.link
                  angle := angle
                  distance := member.distance
                  speed := 0.1 / member.distance } }

/-- The planets built from a list of descriptors, the `i`-th one with the
`i`-th random draw (counted from `k`). -/
def buildPlanets (cos sin : K → K) (pi : K) (random : Nat → K) :
    Nat → List (Member K) → List (Planet K)
  | _, [] => []
  | k, member :: rest =>
    buildPlanet cos sin pi member (random k) ::
      buildPlanets cos sin pi random (k + 1) rest

/-- State after the constructor has run `createScene` on a descriptor list:
`labels = []`, `hoveredPlanet = null`, `mouse = (0, 0)`; the font callbacks of
`addTextLabel` have not fired yet. -/
def createSceneWith (cos sin : K → K) (pi : K) (members : List (Member K))
    (random : Nat → K) : Scene K :=
  { mouse := { x := 0, y := 0 }
    labels := []
    hoveredPlanet := none
    memberPlanets := buildPlanets cos sin pi random 0 members }

/-- The function `createScene`: the scene built from `MEMBERS`. -/
def createScene (cos sin : K → K) (pi : K) (random : Nat → K) : Scene K :=
  createSceneWith cos sin pi MEMBERS random

/-- The place `(x, y + 0.7, z)` at which a text mesh is put for a planet at
`(x, y, z)`; used by `addTextLabel` and by `animate`. -/
def labelPosition (p : Vector3 K) : Vector3 K :=
  { x := p.x, y := p.y + 0.7, z := p.z }

/-- The font-load callback of `addTextLabel` for the planet with index
`planet`: a text mesh is placed above the planet and pushed on `labels`. -/
def addTextLabel (s : Scene K) (planet : Nat) : Scene K :=
  match s.memberPlanets[planet]? with
  | none => s
  | some p =>
    { s with labels := s.labels ++
        [{ textMeshPosition := labelPosition p.position, planet := planet }] }

/-- Apply `f` to the element with index `i`, if there is one. -/
def modifyAt {α : Type} (f : α → α) : Nat → List α → List α
  | _, [] => []
  | 0, a :: l => f a :: l
  | i + 1, a :: l => a :: modifyAt f i l

/-- Effect of `scale.set(1, 1, 1)` and `material.emissive.setHex(0x000000)`. -/
def unhighlight (p : Planet K) : Planet K :=
  { p with scale := { x := 1, y := 1, z := 1 }, emissive := 0x000000 }

/-- Effect of `scale.set(1.2, 1.2, 1.2)` and
`material.emissive = new THREE.Color(0x444444)`. -/
def highlight (p : Planet K) : Planet K :=
  { p with scale := { x := 1.2, y := 1.2, z := 1.2 }, emissive := 0x444444 }

/-- The normalized device coordinates stored in `this.mouse`. -/
def mouseCoords (event : MouseEvent K) (window : Window K) : Vector2 K :=
  { x := (event.clientX / window.innerWidth) * 2 - 1
    y := -(event.clientY / window.innerHeight) * 2 + 1 }

/-- The handler `onMouseMove`; `intersects` is the result of the ray cast. -/
def onMouseMove (s : Scene K) (event : MouseEvent K) (window : Window K)
    (intersects : List Nat) : Scene K :=
  let s1 : Scene K := { s with mouse := mouseCoords event window }
  match intersects with
  | planet :: _ =>
    if s1.hoveredPlanet ≠ some planet then
      let planets :=
        match s1.hoveredPlanet with
        | some hovered => modifyAt unhighlight hovered s1.memberPlanets
        | none => s1.memberPlanets
      { s1 with hoveredPlanet := some planet
                memberPlanets := modifyAt highlight planet planets }
    else s1
  | [] =>
    match s1.hoveredPlanet with
    | some hovered =>
      { s1 with memberPlanets := modifyAt unhighlight hovered s1.memberPlanets
                hoveredPlanet := none }
    | none => s1

/-- The handler `onClick`: the scene afterwards and the links passed to
`console.log`, in order. The test `userData && userData.link` passes when the
link is defined and is not the empty string (`userData` is always an object). -/
def onClick (s : Scene K) (intersects : List Nat) : Scene K × List String :=
  match intersects with
  | selectedPlanet :: _ =>
    match s.memberPlanets[selectedPlanet]? with
    | some p =>
      match p.userData.link with
      | some link => if link ≠ "" then (s, [link]) else (s, [])
      | none => (s, [])
    | none => (s, [])
  | [] => (s, [])

/-- The orbit step of the `forEach` body of `animate` on one planet: the new
angle and position, and `rotation.y += 0.001`. -/
def orbit (cos sin : K → K) (delta : K) (planet : Planet K) : Planet K :=
  let newAngle := planet.userData.angle + planet.userData.speed * delta
  { planet with
    userData := { planet.userData with angle := newAngle }
    position := { x := cos newAngle * planet.userData.distance
                  y := sin newAngle * planet.userData.distance
                  z := planet.position.z }
    rotationY := planet.rotationY + 0.001 }

/-- The label step of the `forEach` body: `labels.find` picks the first entry
bound to `planet`, and its text mesh is moved; no entry, no change. -/
def updateLabel (planet : Nat) (position : Vector3 K) :
    List (Label K) → List (Label K)
  | [] => []
  | label :: rest =>
    if label.planet = planet then
      { label with textMeshPosition := labelPosition position } :: rest
    else label :: updateLabel planet position rest

/-- The loop `this.memberPlanets.forEach` of `animate`, from the planet with
index `i` on: the updated planets and the updated `labels`. -/
def animateLoop (cos sin : K → K) (delta : K) :
    Nat → List (Planet K) → List (Label K) → List (Planet K) × List (Label K)
  | _, [], labels => ([], labels)
  | i, planet :: rest, labels =>
    let planet1 := orbit cos sin delta planet
    let labels1 := updateLabel i planet1.position labels
    let r := animateLoop cos sin delta (i + 1) rest labels1
    (planet1 :: r.1, r.2)

/-- One frame of `animate` with `clock.getDelta() = delta`. -/
def animate (cos sin : K → K) (delta : K) (s : Scene K) : Scene K :=
  let r := animateLoop cos sin delta 0 s.memberPlanets s.labels
  { s with memberPlanets := r.1, labels := r.2 }

/-- The state after `n` frames, each with the same `delta`. -/
def animateN (cos sin : K → K) (delta : K) : Nat → Scene K → Scene K
  | 0, s => s
  | n + 1, s => animateN cos sin delta n (animate cos sin delta s)

/-- States the instance can be in: the one left by `createScene`, and any
state obtained from it by frames of `animate`, `onMouseMove` and `onClick`
events whose ray cast returns planets of the scene, and font callbacks of
`addTextLabel`, each planet's callback firing at most once. -/
inductive Reachable (cos sin : K → K) (pi : K) (members : List (Member K)) :
    Scene K → Prop
  | init (random : Nat → K) :
      Reachable cos sin pi members (createSceneWith cos sin pi members random)
  | frame {s : Scene K} (delta : K) :
      Reachable cos sin pi members s →
      Reachable cos sin pi members (animate cos sin delta s)
  | move {s : Scene K} (event : MouseEvent K) (window : Window K)
      (intersects : List Nat) :
      (∀ i ∈ intersects, i < s.memberPlanets.length) →
      Reachable cos sin pi members s →
      Reachable cos sin pi members (onMouseMove s event window intersects)
  | click {s : Scene K} (intersects : List Nat) :
      (∀ i ∈ intersects, i < s.memberPlanets.length) →
      Reachable cos sin pi members s →
      Reachable cos sin pi members (onClick s intersects).1
  | label {s : Scene K} (planet : Nat) :
      planet < s.memberPlanets.length →
      (∀ l ∈ s.labels, l.planet ≠ planet) →
      Reachable cos sin pi members s →
      Reachable cos sin pi members (addTextLabel s planet)

/-- The states that can follow a state `s0`: `s0` itself, and any state
obtained from it by the steps of `Reachable` (frames, pointer events, font
callbacks). -/
inductive Follows (cos sin : K → K) (s0 : Scene K) : Scene K → Prop
  | refl : Follows cos sin s0 s0
  | frame {s : Scene K} (delta : K) :
      Follows cos sin s0 s → Follows cos sin s0 (animate cos sin delta s)
  | move {s : Scene K} (event : MouseEvent K) (window : Window K)
      (intersects : List Nat) :
      (∀ i ∈ intersects, i < s.memberPlanets.length) →
      Follows cos sin s0 s →
      Follows cos sin s0 (onMouseMove s event window intersects)
  | click {s : Scene K} (intersects : List Nat) :
      (∀ i ∈ intersects, i < s.memberPlanets.length) →
      Follows cos sin s0 s →
      Follows cos sin s0 (onClick s intersects).1
  | label {s : Scene K} (planet : Nat) :
      planet < s.memberPlanets.length →
      (∀ l ∈ s.labels, l.planet ≠ planet) →
      Follows cos sin s0 s →
      Follows cos sin s0 (addTextLabel s planet)

/-- What `animate` maintains of a planet and the pointer handlers never touch:
its position, its `userData` (link, angle, distance, speed) and `rotation.y`. -/
def motion (p : Planet K) : Vector3 K × UserData K × K :=
  (p.position, p.userData, p.rotationY)

/-- The hover invariant: a planet is drawn at scale 1.2 exactly when it is
`hoveredPlanet`, and every other planet has scale 1 and a black emissive. -/
def HoverInv (s : Scene K) : Prop :=
  ∀ i p, s.memberPlanets[i]? = some p →
    (p.scale = ⟨1.2, 1.2, 1.2⟩ ↔ s.hoveredPlanet = some i) ∧
    (s.hoveredPlanet ≠ some i → p.scale = ⟨1, 1, 1⟩ ∧ p.emissive = 0x000000)

/-- Every entry of `labels` is bound to a planet of the scene and its text
mesh sits at that planet's position plus `(0, 0.7, 0)`. -/
def LabelsFollow (s : Scene K) : Prop :=
  ∀ l ∈ s.labels, ∃ p, s.memberPlanets[l.planet]? = some p ∧
    l.textMeshPosition = ⟨p.position.x, p.position.y + 0.7, p.position.z⟩

/-- What the frame loop, started at index `i` on `planets`, does to a label
that is the only one bound to its planet: it is moved above the new position
of that planet when the planet is among `planets`, and kept otherwise. -/
def relabel (cos sin : K → K) (delta : K) (i : Nat) (planets : List (Planet K))
    (l : Label K) : Label K :=
  if i ≤ l.planet then
    match planets[l.planet - i]? with
    | some p =>
      { l with textMeshPosition := labelPosition (orbit cos sin delta p).position }
    | none => l
  else l

/-- A sample scene over the rationals: the four `MEMBERS` planets, all drawn
with `Math.random() = 0`, with stand-ins for `cos`, `sin` and `pi`. -/
def sampleScene : Scene ℚ :=
  createScene (fun _ => 1) (fun _ => 0) 3 (fun _ => 0)

/-- The first planet of `sampleScene` (the President). -/
def samplePresident : Planet ℚ :=
  buildPlanet (fun _ => 1) (fun _ => 0) 3
    { name := "President", color := 0xff0000, distance := 4, size := 0.7,
      link := some "/president" } 0

/-- The second planet of `sampleScene` (the Vice President). -/
def sampleVicePresident : Planet ℚ :=
  buildPlanet (fun _ => 1) (fun _ => 0) 3
    { name := "Vice President", color := 0x00ff00, distance := 5, size := 0.6,
      link := some "/vice-president" } 0

end Defs

section DoubleLemmas

theorem Double.log2Aux_spec (fuel n : Nat) (hn : 0 < n) (hf : n ≤ fuel) :
    2 ^ Double.log2Aux fuel n ≤ n ∧ n < 2 ^ (Double.log2Aux fuel n + 1) := by
  induction fuel generalizing n with
  | zero => omega
  | succ fuel ih =>
    unfold Double.log2Aux
    by_cases h2 : n < 2
    · have h1 : n = 1 := by omega
      simp [h1]
    · simp only [h2, if_false]
      have h3 := ih (n / 2) (Nat.div_pos (by omega) (by norm_num)) (by omega)
      constructor
      · have := h3.1
        rw [pow_succ]
        omega
      · have := h3.2
        rw [pow_succ]
        omega

theorem Double.log2_spec (n : Nat) (hn : 0 < n) :
    2 ^ Double.log2 n ≤ n ∧ n < 2 ^ (Double.log2 n + 1) :=
  Double.log2Aux_spec n n hn (Nat.le_refl n)

theorem Double.roundHalfEven_spec (num den : Nat) (hd : 0 < den) :
    2 * num ≤ 2 * (den * Double.roundHalfEven num den) + den ∧
    2 * (den * Double.roundHalfEven num den) ≤ 2 * num + den := by
  have h1 : den * (num / den) + num % den = num := Nat.div_add_mod num den
  have h2 : num % den < den := Nat.mod_lt num hd
  have h3 : den * (num / den + 1) = den * (num / den) + den := by ring
  unfold Double.roundHalfEven
  simp only
  split_ifs <;> omega

end DoubleLemmas

section ClickLemmas

variable {K : Type}

theorem onClick_fst (s : Scene K) (intersects : List Nat) :
    (onClick s intersects).1 = s := by
  unfold onClick
  cases intersects with
  | nil => rfl
  | cons i rest =>
    cases h : s.memberPlanets[i]? with
    | none => simp [h]
    | some p =>
      cases hl : p.userData.link with
      | none => simp [h, hl]
      | some link =>
        by_cases he : link = ""
        · simp [h, hl, he]
        · simp [h, hl, he]

theorem onClick_snd_cons (s : Scene K) (selected : Nat) (rest : List Nat)
    (p : Planet K) (hp : s.memberPlanets[selected]? = some p) :
    (onClick s (selected :: rest)).2 =
      match p.userData.link with
      | some link => if link ≠ "" then [link] else []
      | none => [] := by
  simp only [onClick, hp]
  cases hl : p.userData.link with
  | none => rfl
  | some link =>
    by_cases he : link = ""
    · simp [he]
    · simp [he]

end ClickLemmas

section Lemmas

variable {K : Type} [LinearOrderedField K]

theorem length_modifyAt {α : Type} (f : α → α) (i : Nat) (l : List α) :
    (modifyAt f i l).length = l.length := by
  induction l generalizing i with
  | nil => simp [modifyAt]
  | cons a l ih =>
    cases i with
    | zero => simp [modifyAt]
    | succ i => simp [modifyAt, ih]

theorem getElem?_modifyAt {α : Type} (f : α → α) (i j : Nat) (l : List α) :
    (modifyAt f i l)[j]? = if j = i then l[j]?.map f else l[j]? := by
  induction l generalizing i j with
  | nil => simp [modifyAt]
  | cons a l ih =>
    cases i with
    | zero =>
      cases j with
      | zero => simp [modifyAt]
      | succ j => simp [modifyAt]
    | succ i =>
      cases j with
      | zero => simp [modifyAt]
      | succ j => simp [modifyAt, ih]

theorem mem_modifyAt {α : Type} (f : α → α) (i : Nat) (l : List α) (q : α)
    (hq : q ∈ modifyAt f i l) : q ∈ l ∨ ∃ p ∈ l, q = f p := by
  induction l generalizing i with
  | nil => simp [modifyAt] at hq
  | cons a l ih =>
    cases i with
    | zero =>
      simp only [modifyAt, List.mem_cons] at hq
      rcases hq with h | h
      · exact Or.inr ⟨a, List.mem_cons_self _ _, h⟩
      · exact Or.inl (List.mem_cons_of_mem _ h)
    | succ i =>
      simp only [modifyAt, List.mem_cons] at hq
      rcases hq with h | h
      · exact Or.inl (h ▸ List.mem_cons_self _ _)
      · rcases ih i h with h1 | ⟨p, hp, h1⟩
        · exact Or.inl (List.mem_cons_of_mem _ h1)
        · exact Or.inr ⟨p, List.mem_cons_of_mem _ hp, h1⟩

theorem animateLoop_fst (cos sin : K → K) (delta : K) (i : Nat)
    (planets : List (Planet K)) (labels : List (Label K)) :
    (animateLoop cos sin delta i planets labels).1 =
      planets.map (orbit cos sin delta) := by
  induction planets generalizing i labels with
  | nil => simp [animateLoop]
  | cons p rest ih => simp [animateLoop, ih]

theorem animate_memberPlanets (cos sin : K → K) (delta : K) (s : Scene K) :
    (animate cos sin delta s).memberPlanets =
      s.memberPlanets.map (orbit cos sin delta) := by
  simp [animate, animateLoop_fst]

theorem onMouseMove_mouse (s : Scene K) (event : MouseEvent K)
    (window : Window K) (intersects : List Nat) :
    (onMouseMove s event window intersects).mouse = mouseCoords event window := by
  unfold onMouseMove
  cases intersects with
  | nil => cases h : s.hoveredPlanet <;> simp [h]
  | cons planet rest =>
    by_cases hp : s.hoveredPlanet = some planet
    · simp [hp]
    · simp [hp]

theorem getElem?_buildPlanets (cos sin : K → K) (pi : K) (random : Nat → K)
    (k : Nat) (members : List (Member K)) (i : Nat) :
    (buildPlanets cos sin pi random k members)[i]? =
      members[i]?.map (fun m => buildPlanet cos sin pi m (random (k + i))) := by
  induction members generalizing k i with
  | nil => simp [buildPlanets]
  | cons m rest ih =>
    cases i with
    | zero => simp [buildPlanets]
    | succ i =>
      simp only [buildPlanets, List.getElem?_cons_succ, ih]
      congr 1
      funext m
      congr 2
      omega

theorem map_modifyAt {α β : Type} (g : α → β) (f : α → α)
    (hf : ∀ a, g (f a) = g a) (i : Nat) (l : List α) :
    (modifyAt f i l).map g = l.map g := by
  induction l generalizing i with
  | nil => simp [modifyAt]
  | cons a l ih =>
    cases i with
    | zero => simp [modifyAt, hf]
    | succ i => simp [modifyAt, ih]

theorem motion_highlight (p : Planet K) : motion (highlight p) = motion p := rfl

theorem motion_unhighlight (p : Planet K) :
    motion (unhighlight p) = motion p := rfl

theorem onMouseMove_labels (s : Scene K) (event : MouseEvent K)
    (window : Window K) (intersects : List Nat) :
    (onMouseMove s event window intersects).labels = s.labels := by
  unfold onMouseMove
  cases intersects with
  | nil => cases h : s.hoveredPlanet <;> simp [h]
  | cons planet rest =>
    by_cases hp : s.hoveredPlanet = some planet
    · simp [hp]
    · simp [hp]

theorem onMouseMove_motion (s : Scene K) (event : MouseEvent K)
    (window : Window K) (intersects : List Nat) :
    (onMouseMove s event window intersects).memberPlanets.map motion =
      s.memberPlanets.map motion := by
  unfold onMouseMove
  cases intersects with
  | nil =>
    cases h : s.hoveredPlanet with
    | none => simp [h]
    | some hovered => simp [h, map_modifyAt motion unhighlight motion_unhighlight]
  | cons planet rest =>
    by_cases hp : s.hoveredPlanet = some planet
    · simp [hp]
    · cases h : s.hoveredPlanet with
      | none => simp [h, map_modifyAt motion highlight motion_highlight]
      | some hovered =>
        have hne : ¬ hovered = planet := by
          intro e
          exact hp (by rw [h, e])
        simp [h, hne, map_modifyAt motion highlight motion_highlight,
          map_modifyAt motion unhighlight motion_unhighlight]

theorem onMouseMove_mem (s : Scene K) (event : MouseEvent K)
    (window : Window K) (intersects : List Nat) (q : Planet K)
    (hq : q ∈ (onMouseMove s event window intersects).memberPlanets) :
    ∃ p ∈ s.memberPlanets, motion p = motion q := by
  have h1 : motion q ∈ (onMouseMove s event window intersects).memberPlanets.map
      motion := List.mem_map_of_mem _ hq
  rw [onMouseMove_motion] at h1
  obtain ⟨p, hp, e⟩ := List.mem_map.1 h1
  exact ⟨p, hp, e⟩

theorem addTextLabel_memberPlanets (s : Scene K) (planet : Nat) :
    (addTextLabel s planet).memberPlanets = s.memberPlanets := by
  unfold addTextLabel
  cases h : s.memberPlanets[planet]? <;> simp

theorem mem_buildPlanets (cos sin : K → K) (pi : K) (random : Nat → K)
    (k : Nat) (members : List (Member K)) (q : Planet K)
    (hq : q ∈ buildPlanets cos sin pi random k members) :
    ∃ m r, q = buildPlanet cos sin pi m r := by
  induction members generalizing k with
  | nil => simp [buildPlanets] at hq
  | cons m rest ih =>
    simp only [buildPlanets, List.mem_cons] at hq
    rcases hq with h | h
    · exact ⟨m, random k, h⟩
    · exact ih (k + 1) h

theorem one_ne_scale : ¬ (1 : K) = 1.2 := by norm_num

theorem hoverInv_onMouseMove (s : Scene K) (event : MouseEvent K)
    (window : Window K) (intersects : List Nat) (hs : HoverInv s) :
    HoverInv (onMouseMove s event window intersects) := by
  unfold onMouseMove
  cases intersects with
  | nil =>
    cases h : s.hoveredPlanet with
    | none =>
      intro i p hp
      have := hs i p (by simpa [h] using hp)
      simpa [h] using this
    | some hovered =>
      intro i p hp
      simp only [h, getElem?_modifyAt] at hp
      by_cases hi : i = hovered
      · simp only [hi, if_true, Option.map_eq_some'] at hp
        obtain ⟨p0, _, e⟩ := hp
        subst e
        simp [unhighlight, one_ne_scale]
      · simp only [hi, if_false] at hp
        have h1 := (hs i p hp).2 (by simp [h]; exact fun e => hi e.symm)
        simp [h1.1, h1.2, one_ne_scale]
  | cons planet rest =>
    cases h : s.hoveredPlanet with
    | none =>
      intro i p hpi
      simp only [h, ne_eq, not_false_eq_true, if_true, getElem?_modifyAt,
        reduceCtorEq] at hpi
      by_cases hi : i = planet
      · simp only [hi, if_true, Option.map_eq_some'] at hpi
        obtain ⟨p0, _, e⟩ := hpi
        subst e
        simp [h, hi, highlight]
      · simp only [hi, if_false] at hpi
        have hne : ¬ planet = i := fun e => hi e.symm
        have h1 := (hs i p hpi).2 (by simp [h])
        simp [h, hne, h1.1, h1.2, one_ne_scale]
    | some hovered =>
      by_cases hp : hovered = planet
      · intro i p hpi
        have := hs i p (by simpa [h, hp] using hpi)
        simpa [h, hp] using this
      · intro i p hpi
        simp only [h, ne_eq, Option.some.injEq, hp, not_false_eq_true, if_true,
          getElem?_modifyAt] at hpi
        by_cases hi : i = planet
        · simp only [hi, if_true, Option.map_eq_some'] at hpi
          obtain ⟨p0, _, e⟩ := hpi
          subst e
          simp [h, hp, hi, highlight]
        · simp only [hi, if_false] at hpi
          have hne : ¬ planet = i := fun e => hi e.symm
          by_cases hih : i = hovered
          · simp only [hih, if_true, Option.map_eq_some'] at hpi
            obtain ⟨p0, _, e⟩ := hpi
            subst e
            simp [h, hp, hne, unhighlight, one_ne_scale]
          · simp only [hih, if_false] at hpi
            have h1 := (hs i p hpi).2 (by simp [h]; exact fun e => hih e.symm)
            simp [h, hp, hne, h1.1, h1.2, one_ne_scale]

theorem hoverInv_animate (cos sin : K → K) (delta : K) (s : Scene K)
    (hs : HoverInv s) : HoverInv (animate cos sin delta s) := by
  intro i p hp
  rw [animate_memberPlanets, List.getElem?_map, Option.map_eq_some'] at hp
  obtain ⟨p0, hp0, e⟩ := hp
  subst e
  exact hs i p0 hp0

theorem hoverInv_addTextLabel (s : Scene K) (planet : Nat) (hs : HoverInv s) :
    HoverInv (addTextLabel s planet) := by
  unfold addTextLabel
  cases h : s.memberPlanets[planet]? with
  | none => exact hs
  | some p => exact hs

theorem hoverInv_createSceneWith (cos sin : K → K) (pi : K)
    (members : List (Member K)) (random : Nat → K) :
    HoverInv (createSceneWith cos sin pi members random) := by
  intro i p hp
  simp only [createSceneWith, getElem?_buildPlanets, Option.map_eq_some'] at hp
  obtain ⟨m, _, e⟩ := hp
  subst e
  simp [createSceneWith, buildPlanet, one_ne_scale]

theorem hoverInv_reachable (cos sin : K → K) (pi : K)
    (members : List (Member K)) (s : Scene K)
    (h : Reachable cos sin pi members s) : HoverInv s := by
  induction h with
  | init random => exact hoverInv_createSceneWith cos sin pi members random
  | frame delta _ ih => exact hoverInv_animate cos sin delta _ ih
  | move event window intersects _ _ ih =>
    exact hoverInv_onMouseMove _ event window intersects ih
  | click intersects _ _ ih =>
    rw [onClick_fst]
    exact ih
  | label planet _ _ _ ih => exact hoverInv_addTextLabel _ planet ih

/-- Fields of a planet fixed at construction: link, distance and speed. -/
theorem static_orbit (cos sin : K → K) (delta : K) (p : Planet K) :
    ((orbit cos sin delta p).userData.link, (orbit cos sin delta p).userData.distance,
      (orbit cos sin delta p).userData.speed) =
    (p.userData.link, p.userData.distance, p.userData.speed) := rfl

theorem map_buildPlanets (cos sin : K → K) (pi : K) (random : Nat → K)
    (k : Nat) (members : List (Member K)) :
    (buildPlanets cos sin pi random k members).map
        (fun p => (p.userData.link, p.userData.distance, p.userData.speed)) =
      members.map (fun m => (m.link, m.distance, 0.1 / m.distance)) := by
  induction members generalizing k with
  | nil => simp [buildPlanets]
  | cons m rest ih => simp [buildPlanets, ih, buildPlanet]

theorem static_reachable (cos sin : K → K) (pi : K)
    (members : List (Member K)) (s : Scene K)
    (h : Reachable cos sin pi members s) :
    s.memberPlanets.map
        (fun p => (p.userData.link, p.userData.distance, p.userData.speed)) =
      members.map (fun m => (m.link, m.distance, 0.1 / m.distance)) := by
  induction h with
  | init random => exact map_buildPlanets cos sin pi random 0 members
  | frame delta _ ih =>
    rw [animate_memberPlanets, List.map_map, ← ih]
    exact List.map_congr_left (fun p _ => static_orbit cos sin delta p)
  | @move s0 event window intersects _ _ ih =>
    have h1 := congrArg
      (List.map (fun t : Vector3 K × UserData K × K =>
        (t.2.1.link, t.2.1.distance, t.2.1.speed)))
      (onMouseMove_motion s0 event window intersects)
    simp only [List.map_map] at h1
    rw [← ih]
    exact h1
  | click intersects _ _ ih =>
    rw [onClick_fst]
    exact ih
  | label planet _ _ _ ih =>
    rw [addTextLabel_memberPlanets]
    exact ih

theorem updateLabel_of_not_bound (planet : Nat) (position : Vector3 K)
    (labels : List (Label K)) (h : ∀ l ∈ labels, l.planet ≠ planet) :
    updateLabel planet position labels = labels := by
  induction labels with
  | nil => rfl
  | cons l rest ih =>
    have h1 : l.planet ≠ planet := h l (List.mem_cons_self _ _)
    simp only [updateLabel, h1, if_false]
    rw [ih (fun l0 hl0 => h l0 (List.mem_cons_of_mem _ hl0))]

theorem updateLabel_eq_map (planet : Nat) (position : Vector3 K)
    (labels : List (Label K)) (h : (labels.map Label.planet).Nodup) :
    updateLabel planet position labels =
      labels.map (fun l => if l.planet = planet then
        { l with textMeshPosition := labelPosition position } else l) := by
  induction labels with
  | nil => rfl
  | cons l rest ih =>
    rw [List.map_cons, List.nodup_cons] at h
    by_cases hl : l.planet = planet
    · simp only [updateLabel, hl, if_true, List.map_cons, List.cons.injEq,
        true_and]
      symm
      conv_rhs => rw [← List.map_id rest]
      apply List.map_congr_left
      intro l0 hl0
      have : l0.planet ≠ planet := by
        intro e
        apply h.1
        rw [hl, ← e]
        exact List.mem_map_of_mem _ hl0
      simp [this]
    · simp only [updateLabel, hl, if_false, List.map_cons]
      rw [ih h.2]

theorem map_planet_updateLabel (planet : Nat) (position : Vector3 K)
    (labels : List (Label K)) :
    (updateLabel planet position labels).map Label.planet =
      labels.map Label.planet := by
  induction labels with
  | nil => rfl
  | cons l rest ih =>
    by_cases hl : l.planet = planet
    · simp [updateLabel, hl]
    · simp [updateLabel, hl, ih]

theorem map_planet_animateLoop (cos sin : K → K) (delta : K) (i : Nat)
    (planets : List (Planet K)) (labels : List (Label K)) :
    (animateLoop cos sin delta i planets labels).2.map Label.planet =
      labels.map Label.planet := by
  induction planets generalizing i labels with
  | nil => rfl
  | cons p rest ih =>
    simp only [animateLoop]
    rw [ih, map_planet_updateLabel]

theorem relabel_step (cos sin : K → K) (delta : K) (i : Nat) (p : Planet K)
    (rest : List (Planet K)) (l : Label K) :
    relabel cos sin delta (i + 1) rest
        (if l.planet = i then
          { l with textMeshPosition :=
              labelPosition (orbit cos sin delta p).position } else l) =
      relabel cos sin delta i (p :: rest) l := by
  by_cases hl : l.planet = i
  · have h1 : ¬ (i + 1 ≤ i) := by omega
    simp [relabel, hl, h1]
  · simp only [hl, if_false, relabel]
    by_cases h1 : i ≤ l.planet
    · have h2 : i + 1 ≤ l.planet := by omega
      have h3 : l.planet - i = (l.planet - (i + 1)) + 1 := by omega
      simp only [h1, h2, if_true]
      rw [h3, List.getElem?_cons_succ]
    · have h2 : ¬ (i + 1 ≤ l.planet) := by omega
      simp [h1, h2]

theorem animateLoop_snd (cos sin : K → K) (delta : K) (i : Nat)
    (planets : List (Planet K)) (labels : List (Label K))
    (h : (labels.map Label.planet).Nodup) :
    (animateLoop cos sin delta i planets labels).2 =
      labels.map (relabel cos sin delta i planets) := by
  induction planets generalizing i labels with
  | nil =>
    simp only [animateLoop]
    conv_lhs => rw [← List.map_id labels]
    apply List.map_congr_left
    intro l _
    by_cases h1 : i ≤ l.planet <;> simp [relabel, h1]
  | cons p rest ih =>
    simp only [animateLoop]
    rw [ih (i + 1) _ (by rw [map_planet_updateLabel]; exact h),
      updateLabel_eq_map _ _ _ h, List.map_map]
    apply List.map_congr_left
    intro l _
    exact relabel_step cos sin delta i p rest l

theorem labelsFollow_animate (cos sin : K → K) (delta : K) (s : Scene K)
    (hn : (s.labels.map Label.planet).Nodup) (hs : LabelsFollow s) :
    LabelsFollow (animate cos sin delta s) := by
  intro l hl
  have h1 : (animate cos sin delta s).labels =
      s.labels.map (relabel cos sin delta 0 s.memberPlanets) := by
    simp only [animate]
    exact animateLoop_snd cos sin delta 0 s.memberPlanets s.labels hn
  rw [h1] at hl
  obtain ⟨l0, hl0, e⟩ := List.mem_map.1 hl
  obtain ⟨p, hp, _⟩ := hs l0 hl0
  subst e
  refine ⟨orbit cos sin delta p, ?_, ?_⟩
  · rw [animate_memberPlanets, List.getElem?_map]
    simp [relabel, hp]
  · simp [relabel, hp, labelPosition]

theorem labelsFollow_onMouseMove (s : Scene K) (event : MouseEvent K)
    (window : Window K) (intersects : List Nat) (hs : LabelsFollow s) :
    LabelsFollow (onMouseMove s event window intersects) := by
  intro l hl
  rw [onMouseMove_labels] at hl
  obtain ⟨p, hp, e⟩ := hs l hl
  have h1 := congrArg (fun t => t[l.planet]?)
    (onMouseMove_motion s event window intersects)
  simp only [List.getElem?_map, hp, Option.map_some', Option.map_eq_some'] at h1
  obtain ⟨q, hq, hm⟩ := h1
  have h2 : q.position = p.position := congrArg Prod.fst hm
  exact ⟨q, hq, by rw [h2]; exact e⟩

theorem labelsFollow_addTextLabel (s : Scene K) (planet : Nat)
    (hs : LabelsFollow s) : LabelsFollow (addTextLabel s planet) := by
  unfold addTextLabel
  cases h : s.memberPlanets[planet]? with
  | none => exact hs
  | some p =>
    intro l hl
    simp only [List.mem_append, List.mem_singleton] at hl
    rcases hl with hl | hl
    · exact hs l hl
    · subst hl
      exact ⟨p, h, rfl⟩

theorem nodup_addTextLabel (s : Scene K) (planet : Nat)
    (hfresh : ∀ l ∈ s.labels, l.planet ≠ planet)
    (hn : (s.labels.map Label.planet).Nodup) :
    ((addTextLabel s planet).labels.map Label.planet).Nodup := by
  unfold addTextLabel
  cases h : s.memberPlanets[planet]? with
  | none => exact hn
  | some p =>
    simp only [List.map_append, List.map_cons, List.map_nil]
    rw [List.nodup_append]
    refine ⟨hn, List.nodup_singleton _, ?_⟩
    intro a ha hb
    rw [List.mem_singleton] at hb
    obtain ⟨l, hl, e⟩ := List.mem_map.1 ha
    exact hfresh l hl (e.trans hb)

theorem labels_reachable (cos sin : K → K) (pi : K)
    (members : List (Member K)) (s : Scene K)
    (h : Reachable cos sin pi members s) :
    (s.labels.map Label.planet).Nodup ∧ LabelsFollow s := by
  induction h with
  | init random =>
    refine ⟨by simp [createSceneWith], ?_⟩
    intro l hl
    simp [createSceneWith] at hl
  | @frame s0 delta _ ih =>
    refine ⟨?_, labelsFollow_animate cos sin delta s0 ih.1 ih.2⟩
    simp only [animate]
    rw [map_planet_animateLoop]
    exact ih.1
  | @move s0 event window intersects _ _ ih =>
    refine ⟨?_, labelsFollow_onMouseMove s0 event window intersects ih.2⟩
    rw [onMouseMove_labels]
    exact ih.1
  | click intersects _ _ ih =>
    rw [onClick_fst]
    exact ih
  | @label s0 planet _ hfresh _ ih =>
    exact ⟨nodup_addTextLabel s0 planet hfresh ih.1,
      labelsFollow_addTextLabel s0 planet ih.2⟩

theorem reachable_of_follows (cos sin : K → K) (pi : K)
    (members : List (Member K)) (s0 t : Scene K)
    (h0 : Reachable cos sin pi members s0) (h : Follows cos sin s0 t) :
    Reachable cos sin pi members t := by
  induction h with
  | refl => exact h0
  | frame delta _ ih => exact Reachable.frame delta ih
  | move event window intersects hi _ ih =>
    exact Reachable.move event window intersects hi ih
  | click intersects hi _ ih => exact Reachable.click intersects hi ih
  | label planet hp hfresh _ ih => exact Reachable.label planet hp hfresh ih

theorem addTextLabel_labels (s : Scene K) (planet : Nat) (p : Planet K)
    (hp : s.memberPlanets[planet]? = some p) :
    (addTextLabel s planet).labels =
      s.labels ++ [{ textMeshPosition :=
        ⟨p.position.x, p.position.y + 0.7, p.position.z⟩, planet := planet }] := by
  simp [addTextLabel, hp, labelPosition]

theorem addTextLabel_extends (s : Scene K) (planet : Nat) :
    s.labels.map Label.planet <+: (addTextLabel s planet).labels.map Label.planet := by
  unfold addTextLabel
  cases h : s.memberPlanets[planet]? with
  | none => exact List.prefix_refl _
  | some p =>
    simp only [List.map_append]
    exact List.prefix_append _ _

theorem follows_labels (cos sin : K → K) (s0 t : Scene K)
    (h : Follows cos sin s0 t) :
    s0.labels.map Label.planet <+: t.labels.map Label.planet := by
  induction h with
  | refl => exact List.prefix_refl _
  | @frame s1 delta _ ih =>
    have h1 : (animate cos sin delta s1).labels.map Label.planet =
        s1.labels.map Label.planet := by
      simp only [animate]
      exact map_planet_animateLoop cos sin delta 0 s1.memberPlanets s1.labels
    rw [h1]
    exact ih
  | @move s1 event window intersects _ _ ih =>
    rw [onMouseMove_labels]
    exact ih
  | click intersects _ _ ih =>
    rw [onClick_fst]
    exact ih
  | @label s1 planet _ _ _ ih =>
    exact List.IsPrefix.trans ih (addTextLabel_extends s1 planet)

end Lemmas

section Claims

variable {K : Type} [LinearOrderedField K]

/-- C1: after `N` frames of `animate` with the same `dt`, the stored angle of
every planet is its initial angle plus `N * speed * dt`, and its stored speed
is the one it started with. -/
theorem animateN_angle (cos sin : K → K) (dt : K) (N : Nat) (s : Scene K)
    (i : Nat) (p : Planet K) (hp : s.memberPlanets[i]? = some p) :
    ∃ q, (animateN cos sin dt N s).memberPlanets[i]? = some q ∧
      q.userData.angle = p.userData.angle + (N : K) * p.userData.speed * dt ∧
      q.userData.speed = p.userData.speed := by
  induction N generalizing s p with
  | zero => exact ⟨p, by simpa [animateN] using hp, by simp, rfl⟩
  | succ n ih =>
    have h1 : (animate cos sin dt s).memberPlanets[i]? =
        some (orbit cos sin dt p) := by
      simp [animate_memberPlanets, hp]
    obtain ⟨q, hq, ha, hs⟩ := ih _ _ h1
    refine ⟨q, by simpa [animateN] using hq, ?_, ?_⟩
    · rw [ha]
      simp only [orbit]
      push_cast
      ring
    · rw [hs]
      simp [orbit]

theorem animateN_angle_witness :
    ∃ q, (animateN (fun _ => (1 : ℚ)) (fun _ => 0) 2 3 sampleScene).memberPlanets[0]?
        = some q ∧
      q.userData.angle = samplePresident.userData.angle +
        ((3 : ℕ) : ℚ) * samplePresident.userData.speed * 2 ∧
      q.userData.speed = samplePresident.userData.speed :=
  animateN_angle (fun _ => (1 : ℚ)) (fun _ => 0) 2 3 sampleScene 0
    samplePresident rfl

/-- C2: in every reachable state each planet sits at
`(distance * cos angle, distance * sin angle, 0)` for its stored angle and
distance. -/
theorem position_on_orbit (cos sin : K → K) (pi : K) (members : List (Member K))
    (s : Scene K) (h : Reachable cos sin pi members s) :
    ∀ p ∈ s.memberPlanets,
      p.position.x = p.userData.distance * cos p.userData.angle ∧
      p.position.y = p.userData.distance * sin p.userData.angle ∧
      p.position.z = 0 := by
  induction h with
  | init random =>
    intro p hp
    obtain ⟨m, r, e⟩ := mem_buildPlanets cos sin pi random 0 members p hp
    subst e
    exact ⟨mul_comm _ _, mul_comm _ _, rfl⟩
  | frame delta _ ih =>
    intro p hp
    rw [animate_memberPlanets] at hp
    obtain ⟨p0, hp0, e⟩ := List.mem_map.1 hp
    subst e
    exact ⟨mul_comm _ _, mul_comm _ _, (ih p0 hp0).2.2⟩
  | move event window intersects _ _ ih =>
    intro p hp
    obtain ⟨p0, hp0, e⟩ := onMouseMove_mem _ event window intersects p hp
    have h1 : p.position = p0.position := (congrArg Prod.fst e).symm
    have h2 : p.userData = p0.userData :=
      (congrArg (fun t => t.2.1) e).symm
    rw [h1, h2]
    exact ih p0 hp0
  | click intersects _ _ ih =>
    rw [onClick_fst]
    exact ih
  | label planet _ _ _ ih =>
    rw [addTextLabel_memberPlanets]
    exact ih

theorem position_on_orbit_witness :
    (highlight (orbit (fun _ => (1 : ℚ)) (fun _ => 0) 2
        sampleVicePresident)).position.x =
      (highlight (orbit (fun _ => (1 : ℚ)) (fun _ => 0) 2
        sampleVicePresident)).userData.distance *
        (fun _ => (1 : ℚ)) (highlight (orbit (fun _ => (1 : ℚ)) (fun _ => 0) 2
          sampleVicePresident)).userData.angle ∧
    (highlight (orbit (fun _ => (1 : ℚ)) (fun _ => 0) 2
        sampleVicePresident)).position.y =
      (highlight (orbit (fun _ => (1 : ℚ)) (fun _ => 0) 2
        sampleVicePresident)).userData.distance *
        (fun _ => (0 : ℚ)) (highlight (orbit (fun _ => (1 : ℚ)) (fun _ => 0) 2
          sampleVicePresident)).userData.angle ∧
    (highlight (orbit (fun _ => (1 : ℚ)) (fun _ => 0) 2
        sampleVicePresident)).position.z = 0 :=
  position_on_orbit (fun _ => (1 : ℚ)) (fun _ => 0) 3 MEMBERS
    (onMouseMove (animate (fun _ => (1 : ℚ)) (fun _ => 0) 2 sampleScene)
      ⟨10, 20⟩ ⟨100, 50⟩ [1])
    (Reachable.move ⟨10, 20⟩ ⟨100, 50⟩ [1]
      (by simp [animate_memberPlanets, sampleScene, createScene, createSceneWith,
        MEMBERS, buildPlanets])
      (Reachable.frame 2 (Reachable.init (fun _ => 0))))
    (highlight (orbit (fun _ => (1 : ℚ)) (fun _ => 0) 2 sampleVicePresident))
    (@List.getElem?_mem _ _ 1 _ rfl)

/-- C7, as stated, fails in the binary64 arithmetic of the code: the distances
`6` and `6.000000000000001` are different numbers, `0 < 6 < 6.000000000000001`,
and `0.1 / 6` and `0.1 / 6.000000000000001` are the same number, so the body
farther out is not strictly slower. -/
theorem speed64_not_strict :
    Double.ofDecimal 1 1 = Double.finite 7205759403792794 (-56) ∧
    Double.ofDecimal 6 0 = Double.finite 6755399441055744 (-50) ∧
    Double.ofDecimal 6000000000000001 15 = Double.finite 6755399441055745 (-50) ∧
    Double.lt (Double.ofDecimal 0 0) (Double.ofDecimal 6 0) = true ∧
    Double.lt (Double.ofDecimal 6 0) (Double.ofDecimal 6000000000000001 15) = true ∧
    speed64 (Double.ofDecimal 6 0) = Double.finite 4803839602528529 (-58) ∧
    speed64 (Double.ofDecimal 6000000000000001 15) =
      Double.finite 4803839602528529 (-58) ∧
    Double.lt (speed64 (Double.ofDecimal 6000000000000001 15))
      (speed64 (Double.ofDecimal 6 0)) = false := by
  decide

/-- C7, amended: a planet built from a descriptor gets speed `0.1 / distance`;
with the quotient taken in an exact ordered field, of two descriptors with
`0 < d1 < d2` the one at `d2` gets the strictly smaller speed; and in the
scene built by `createScene` the Treasurer (distance 7) is strictly slower
than the President (distance 4), in exact arithmetic and in binary64. -/
theorem speed_inverse_distance (cos sin : K → K) (pi : K) :
    (∀ (members : List (Member K)) (random : Nat → K) (i : Nat) (m : Member K),
      members[i]? = some m →
      ∃ p, (createSceneWith cos sin pi members random).memberPlanets[i]? = some p ∧
        p.userData.distance = m.distance ∧
        p.userData.speed = 0.1 / m.distance) ∧
    (∀ (m1 m2 : Member K) (r1 r2 : K),
      0 < m1.distance → m1.distance < m2.distance →
      (buildPlanet cos sin pi m2 r2).userData.speed <
        (buildPlanet cos sin pi m1 r1).userData.speed) ∧
    (∀ random : Nat → K, ∃ president treasurer,
      (createScene cos sin pi random).memberPlanets[0]? = some president ∧
      (createScene cos sin pi random).memberPlanets[3]? = some treasurer ∧
      president.userData.distance = 4 ∧ treasurer.userData.distance = 7 ∧
      president.userData.link = some "/president" ∧
      treasurer.userData.link = some "/treasurer" ∧
      treasurer.userData.speed < president.userData.speed) ∧
    (speed64 (Double.ofDecimal 4 0) = Double.finite 7205759403792794 (-58) ∧
      speed64 (Double.ofDecimal 7 0) = Double.finite 8235153604334622 (-59) ∧
      Double.lt (speed64 (Double.ofDecimal 7 0)) (speed64 (Double.ofDecimal 4 0)) =
        true) := by
  refine ⟨?_, ?_, ?_, by decide⟩
  · intro members random i m hm
    refine ⟨buildPlanet cos sin pi m (random (0 + i)), ?_, rfl, rfl⟩
    simp [createSceneWith, getElem?_buildPlanets, hm]
  · intro m1 m2 r1 r2 h1 h2
    simp only [buildPlanet]
    exact div_lt_div_of_pos_left (by norm_num) h1 h2
  · intro random
    refine ⟨_, _, rfl, rfl, rfl, rfl, rfl, rfl, ?_⟩
    show (0.1 : K) / 7 < 0.1 / 4
    exact div_lt_div_of_pos_left (by norm_num) (by norm_num) (by norm_num)

theorem speed_inverse_distance_witness :
    (buildPlanet (fun _ => (1 : ℚ)) (fun _ => 0) 3
        { name := "b", color := 2, distance := 7, size := 1, link := none }
        0).userData.speed <
      (buildPlanet (fun _ => (1 : ℚ)) (fun _ => 0) 3
        { name := "a", color := 1, distance := 4, size := 1, link := none }
        0).userData.speed :=
  (speed_inverse_distance (fun _ => (1 : ℚ)) (fun _ => 0) 3).2.1
    { name := "a", color := 1, distance := 4, size := 1, link := none }
    { name := "b", color := 2, distance := 7, size := 1, link := none }
    0 0 (by norm_num) (by norm_num)

/-- C10: `onMouseMove` stores `x' = (x / w) * 2 - 1` and
`y' = -(y / h) * 2 + 1`; for `w, h > 0`, a pixel with `0 ≤ x ≤ w` and
`0 ≤ y ≤ h` lands in `[-1, 1] × [-1, 1]`, pixel `(0, 0)` on `(-1, 1)` and
pixel `(w, h)` on `(1, -1)`. -/
theorem mouse_normalized (s : Scene K) (x y w h : K) (intersects : List Nat) :
    (onMouseMove s ⟨x, y⟩ ⟨w, h⟩ intersects).mouse.x = (x / w) * 2 - 1 ∧
    (onMouseMove s ⟨x, y⟩ ⟨w, h⟩ intersects).mouse.y = -(y / h) * 2 + 1 ∧
    (0 < w → 0 < h →
      (0 ≤ x → x ≤ w →
        -1 ≤ (onMouseMove s ⟨x, y⟩ ⟨w, h⟩ intersects).mouse.x ∧
        (onMouseMove s ⟨x, y⟩ ⟨w, h⟩ intersects).mouse.x ≤ 1) ∧
      (0 ≤ y → y ≤ h →
        -1 ≤ (onMouseMove s ⟨x, y⟩ ⟨w, h⟩ intersects).mouse.y ∧
        (onMouseMove s ⟨x, y⟩ ⟨w, h⟩ intersects).mouse.y ≤ 1) ∧
      (onMouseMove s ⟨0, 0⟩ ⟨w, h⟩ intersects).mouse = ⟨-1, 1⟩ ∧
      (onMouseMove s ⟨w, h⟩ ⟨w, h⟩ intersects).mouse = ⟨1, -1⟩) := by
  simp only [onMouseMove_mouse, mouseCoords]
  refine ⟨trivial, trivial, ?_⟩
  intro hw hh
  refine ⟨?_, ?_, ?_, ?_⟩
  · intro hx0 hxw
    have h0 : 0 ≤ x / w := div_nonneg hx0 hw.le
    have h1 : x / w ≤ 1 := (div_le_one hw).2 hxw
    constructor <;> linarith
  · intro hy0 hyh
    have h0 : 0 ≤ y / h := div_nonneg hy0 hh.le
    have h1 : y / h ≤ 1 := (div_le_one hh).2 hyh
    constructor <;> linarith
  · simp
  · rw [div_self hw.ne.symm, div_self hh.ne.symm]
    norm_num

theorem mouse_normalized_witness :
    (0 ≤ (200 : ℚ) → (200 : ℚ) ≤ 800 →
      -1 ≤ (onMouseMove sampleScene ⟨200, 150⟩ ⟨800, 600⟩ [2]).mouse.x ∧
      (onMouseMove sampleScene ⟨200, 150⟩ ⟨800, 600⟩ [2]).mouse.x ≤ 1) ∧
    (0 ≤ (150 : ℚ) → (150 : ℚ) ≤ 600 →
      -1 ≤ (onMouseMove sampleScene ⟨200, 150⟩ ⟨800, 600⟩ [2]).mouse.y ∧
      (onMouseMove sampleScene ⟨200, 150⟩ ⟨800, 600⟩ [2]).mouse.y ≤ 1) ∧
    (onMouseMove sampleScene ⟨0, 0⟩ ⟨800, 600⟩ [2]).mouse = ⟨-1, 1⟩ ∧
    (onMouseMove sampleScene ⟨800, 600⟩ ⟨800, 600⟩ [2]).mouse = ⟨1, -1⟩ :=
  (mouse_normalized sampleScene 200 150 800 600 [2]).2.2 (by norm_num)
    (by norm_num)

/-- C3: in every reachable state a planet has scale 1.2 exactly when it is
`hoveredPlanet`, and every other planet has scale 1 and emissive `0x000000`;
and when the nearest hit moves from planet `A` to another planet `B`, the same
`onMouseMove` step resets `A` and highlights `B`. -/
theorem hover_at_most_one (cos sin : K → K) (pi : K) (members : List (Member K)) :
    (∀ s : Scene K, Reachable cos sin pi members s →
      ∀ i p, s.memberPlanets[i]? = some p →
        (p.scale = ⟨1.2, 1.2, 1.2⟩ ↔ s.hoveredPlanet = some i) ∧
        (s.hoveredPlanet ≠ some i →
          p.scale = ⟨1, 1, 1⟩ ∧ p.emissive = 0x000000)) ∧
    (∀ (s : Scene K) (event : MouseEvent K) (window : Window K)
        (A B : Nat) (rest : List Nat),
      s.hoveredPlanet = some A → A ≠ B →
      A < s.memberPlanets.length → B < s.memberPlanets.length →
      (onMouseMove s event window (B :: rest)).hoveredPlanet = some B ∧
      (∃ qa, (onMouseMove s event window (B :: rest)).memberPlanets[A]? = some qa ∧
        qa.scale = ⟨1, 1, 1⟩ ∧ qa.emissive = 0x000000) ∧
      (∃ qb, (onMouseMove s event window (B :: rest)).memberPlanets[B]? = some qb ∧
        qb.scale = ⟨1.2, 1.2, 1.2⟩ ∧ qb.emissive = 0x444444)) := by
  refine ⟨fun s h => hoverInv_reachable cos sin pi members s h, ?_⟩
  intro s event window A B rest hA hAB hlA hlB
  have hBA : ¬ B = A := fun e => hAB e.symm
  obtain ⟨pa, hpa⟩ : ∃ pa, s.memberPlanets[A]? = some pa :=
    ⟨_, List.getElem?_eq_getElem hlA⟩
  obtain ⟨pb, hpb⟩ : ∃ pb, s.memberPlanets[B]? = some pb :=
    ⟨_, List.getElem?_eq_getElem hlB⟩
  refine ⟨?_, ⟨unhighlight pa, ?_, rfl, rfl⟩, ⟨highlight pb, ?_, rfl, rfl⟩⟩
  · simp [onMouseMove, hA, hAB]
  · simp [onMouseMove, hA, hAB, getElem?_modifyAt, hpa]
  · simp [onMouseMove, hA, hAB, getElem?_modifyAt, hpb, hBA]

theorem hover_at_most_one_witness :
    ((highlight sampleVicePresident).scale = ⟨1.2, 1.2, 1.2⟩ ↔
      (onMouseMove (onMouseMove sampleScene ⟨10, 20⟩ ⟨100, 50⟩ [0])
        ⟨30, 20⟩ ⟨100, 50⟩ [1, 0]).hoveredPlanet = some 1) ∧
    ((onMouseMove (onMouseMove sampleScene ⟨10, 20⟩ ⟨100, 50⟩ [0])
        ⟨30, 20⟩ ⟨100, 50⟩ [1, 0]).hoveredPlanet ≠ some 1 →
      (highlight sampleVicePresident).scale = ⟨1, 1, 1⟩ ∧
      (highlight sampleVicePresident).emissive = 0x000000) :=
  (hover_at_most_one (fun _ => (1 : ℚ)) (fun _ => 0) 3 MEMBERS).1
    (onMouseMove (onMouseMove sampleScene ⟨10, 20⟩ ⟨100, 50⟩ [0])
      ⟨30, 20⟩ ⟨100, 50⟩ [1, 0])
    (Reachable.move ⟨30, 20⟩ ⟨100, 50⟩ [1, 0]
      (by
        have h := congrArg List.length
          (onMouseMove_motion sampleScene ⟨10, 20⟩ ⟨100, 50⟩ [0])
        simp only [List.length_map] at h
        rw [h]
        simp [sampleScene, createScene, createSceneWith, MEMBERS, buildPlanets])
      (Reachable.move ⟨10, 20⟩ ⟨100, 50⟩ [0]
        (by simp [sampleScene, createScene, createSceneWith, MEMBERS, buildPlanets])
        (Reachable.init (fun _ => 0))))
    1 (highlight sampleVicePresident) rfl

/-- C4: a click whose nearest hit is a planet with a non-empty link emits
exactly one event, that link; in every state reachable from `createScene`, a
click with the President planet nearest emits exactly `["/president"]`. -/
theorem click_emits_link (cos sin : K → K) (pi : K) :
    (∀ (s : Scene K) (selected : Nat) (rest : List Nat) (p : Planet K)
        (link : String),
      s.memberPlanets[selected]? = some p → p.userData.link = some link →
      link ≠ "" → (onClick s (selected :: rest)).2 = [link]) ∧
    (∀ s : Scene K, Reachable cos sin pi MEMBERS s →
      ∀ rest : List Nat, (onClick s (0 :: rest)).2 = ["/president"]) := by
  constructor
  · intro s selected rest p link hp hl hne
    rw [onClick_snd_cons s selected rest p hp, hl]
    simp [hne]
  · intro s h rest
    have h1 := congrArg (fun l => l[0]?) (static_reachable cos sin pi MEMBERS s h)
    simp only [List.getElem?_map, MEMBERS, List.getElem?_cons_zero,
      Option.map_some', Option.map_eq_some'] at h1
    obtain ⟨p, hp, e⟩ := h1
    have hl : p.userData.link = some "/president" := congrArg Prod.fst e
    rw [onClick_snd_cons s 0 rest p hp, hl]
    simp

theorem click_emits_link_witness :
    (onClick (animate (fun _ => (1 : ℚ)) (fun _ => 0) 2 sampleScene) [0, 2]).2 =
      ["/president"] :=
  (click_emits_link (fun _ => (1 : ℚ)) (fun _ => 0) 3).2 _
    (Reachable.frame 2 (Reachable.init (fun _ => 0))) [2]

/-- C5: `onClick` never changes the scene; it emits nothing when the ray cast
hits no planet or when the nearest planet has no link (undefined or empty);
and whatever it emits is the defined, non-empty link of the nearest planet, at
most one per click. -/
theorem click_without_link_silent {K : Type} (s : Scene K)
    (intersects : List Nat) :
    (onClick s intersects).1 = s ∧
    (intersects = [] → (onClick s intersects).2 = []) ∧
    (∀ selected rest p, intersects = selected :: rest →
      s.memberPlanets[selected]? = some p →
      (p.userData.link = none ∨ p.userData.link = some "") →
      (onClick s intersects).2 = []) ∧
    (∀ l ∈ (onClick s intersects).2, l ≠ "" ∧
      ∃ selected rest p, intersects = selected :: rest ∧
        s.memberPlanets[selected]? = some p ∧ p.userData.link = some l) ∧
    (onClick s intersects).2.length ≤ 1 := by
  refine ⟨onClick_fst s intersects, ?_, ?_, ?_, ?_⟩
  · intro h
    subst h
    rfl
  · intro selected rest p hi hp hl
    subst hi
    rw [onClick_snd_cons s selected rest p hp]
    rcases hl with hl | hl
    · simp [hl]
    · simp [hl]
  · intro l hl
    cases intersects with
    | nil => simp [onClick] at hl
    | cons selected rest =>
      cases hp : s.memberPlanets[selected]? with
      | none => simp [onClick, hp] at hl
      | some p =>
        rw [onClick_snd_cons s selected rest p hp] at hl
        cases hlink : p.userData.link with
        | none => simp [hlink] at hl
        | some link =>
          by_cases he : link = ""
          · simp [hlink, he] at hl
          · simp only [hlink, ne_eq, he, not_false_eq_true, if_true,
              List.mem_singleton] at hl
            subst hl
            exact ⟨he, selected, rest, p, rfl, hp, hlink⟩
  · cases intersects with
    | nil => simp [onClick]
    | cons selected rest =>
      cases hp : s.memberPlanets[selected]? with
      | none => simp [onClick, hp]
      | some p =>
        rw [onClick_snd_cons s selected rest p hp]
        cases hlink : p.userData.link with
        | none => simp
        | some link =>
          by_cases he : link = ""
          · simp [he]
          · simp [he]

theorem click_without_link_silent_witness :
    (onClick (⟨⟨0, 0⟩, [], none,
        [{ samplePresident with
            userData := { samplePresident.userData with link := none } }]⟩ :
        Scene ℚ) [0]).2 = [] :=
  (click_without_link_silent _ [0]).2.2.1 0 []
    { samplePresident with
      userData := { samplePresident.userData with link := none } }
    rfl rfl (Or.inl rfl)

/-- C9: `onMouseMove` keeps `labels` as it is and keeps the position, angle,
distance, speed, link and `rotation.y` of every planet; only `mouse`,
`hoveredPlanet` and the scale and emissive of planets can differ. -/
theorem mouse_move_keeps_motion (s : Scene K) (event : MouseEvent K)
    (window : Window K) (intersects : List Nat) :
    (onMouseMove s event window intersects).labels = s.labels ∧
    (onMouseMove s event window intersects).memberPlanets.length =
      s.memberPlanets.length ∧
    (onMouseMove s event window intersects).memberPlanets.map
        (fun p => (p.position, p.userData.link, p.userData.angle,
          p.userData.distance, p.userData.speed, p.rotationY)) =
      s.memberPlanets.map
        (fun p => (p.position, p.userData.link, p.userData.angle,
          p.userData.distance, p.userData.speed, p.rotationY)) := by
  have hm := onMouseMove_motion s event window intersects
  refine ⟨onMouseMove_labels s event window intersects, ?_, ?_⟩
  · simpa using congrArg List.length hm
  · have h1 := congrArg
      (List.map (fun t : Vector3 K × UserData K × K =>
        (t.1, t.2.1.link, t.2.1.angle, t.2.1.distance, t.2.1.speed, t.2.2))) hm
    simp only [List.map_map] at h1
    exact h1

/-- C6: the font callback of `addTextLabel` appends a label bound to its planet
at the planet's position plus `(0, 0.7, 0)`; from then on, in every later
state, `labels` holds a label bound to that planet and it sits at the planet's
current position plus `(0, 0.7, 0)`; in every reachable state this holds of
each label in `labels`, and no two labels are bound to the same planet; a
frame of `animate` performs the orbit step on every planet whatever `labels`
holds; and the step for a planet to which no label is bound leaves `labels`
as it is, so that a frame run before any label has loaded keeps `labels`
empty. -/
theorem labels_follow_planets (cos sin : K → K) (pi : K)
    (members : List (Member K)) :
    (∀ s : Scene K, Reachable cos sin pi members s →
      ∀ l ∈ s.labels, ∃ p, s.memberPlanets[l.planet]? = some p ∧
        l.textMeshPosition =
          ⟨p.position.x, p.position.y + 0.7, p.position.z⟩) ∧
    (∀ (s : Scene K) (delta : K),
      (animate cos sin delta s).memberPlanets =
        s.memberPlanets.map (orbit cos sin delta)) ∧
    (∀ (planet : Nat) (position : Vector3 K) (labels : List (Label K)),
      (∀ l ∈ labels, l.planet ≠ planet) →
      updateLabel planet position labels = labels) ∧
    (∀ (s : Scene K) (delta : K), s.labels = [] →
      (animate cos sin delta s).labels = []) ∧
    (∀ (s : Scene K) (planet : Nat) (p : Planet K),
      s.memberPlanets[planet]? = some p →
      (addTextLabel s planet).labels =
        s.labels ++ [{ textMeshPosition :=
          ⟨p.position.x, p.position.y + 0.7, p.position.z⟩, planet := planet }]) ∧
    (∀ (s : Scene K) (planet : Nat), Reachable cos sin pi members s →
      planet < s.memberPlanets.length →
      (∀ l ∈ s.labels, l.planet ≠ planet) →
      ∀ t : Scene K, Follows cos sin (addTextLabel s planet) t →
        ∃ l ∈ t.labels, l.planet = planet ∧
          ∃ p, t.memberPlanets[planet]? = some p ∧
            l.textMeshPosition =
              ⟨p.position.x, p.position.y + 0.7, p.position.z⟩) ∧
    (∀ s : Scene K, Reachable cos sin pi members s →
      (s.labels.map Label.planet).Nodup) := by
  refine ⟨fun s h => (labels_reachable cos sin pi members s h).2,
    fun s delta => animate_memberPlanets cos sin delta s,
    fun planet position labels h => updateLabel_of_not_bound planet position labels h,
    ?_, fun s planet p hp => addTextLabel_labels s planet p hp, ?_,
    fun s h => (labels_reachable cos sin pi members s h).1⟩
  · intro s delta h
    have h1 := map_planet_animateLoop cos sin delta 0 s.memberPlanets s.labels
    rw [h] at h1
    simpa [animate, h] using h1
  · intro s planet hs hlt hfresh t ht
    have hr : Reachable cos sin pi members t :=
      reachable_of_follows cos sin pi members _ t
        (Reachable.label planet hlt hfresh hs) ht
    have h1 : planet ∈ (addTextLabel s planet).labels.map Label.planet := by
      rw [addTextLabel_labels s planet _ (List.getElem?_eq_getElem hlt)]
      simp
    have h2 : planet ∈ t.labels.map Label.planet :=
      (follows_labels cos sin _ t ht).subset h1
    obtain ⟨l, hl, e⟩ := List.mem_map.1 h2
    obtain ⟨p, hp, hpos⟩ := (labels_reachable cos sin pi members t hr).2 l hl
    rw [e] at hp
    exact ⟨l, hl, e, p, hp, hpos⟩

theorem labels_follow_planets_witness :
    ∃ l ∈ (onMouseMove (animate (fun _ => (1 : ℚ)) (fun _ => 0) 2
        (addTextLabel sampleScene 1)) ⟨10, 20⟩ ⟨100, 50⟩ [1]).labels,
      l.planet = 1 ∧
      ∃ p, (onMouseMove (animate (fun _ => (1 : ℚ)) (fun _ => 0) 2
          (addTextLabel sampleScene 1)) ⟨10, 20⟩ ⟨100, 50⟩ [1]).memberPlanets[1]?
            = some p ∧
        l.textMeshPosition =
          ⟨p.position.x, p.position.y + 0.7, p.position.z⟩ :=
  (labels_follow_planets (fun _ => (1 : ℚ)) (fun _ => 0) 3 MEMBERS).2.2.2.2.2.1
    sampleScene 1 (Reachable.init (fun _ => 0))
    (by simp [sampleScene, createScene, createSceneWith, MEMBERS, buildPlanets])
    (by simp [sampleScene, createScene, createSceneWith])
    (onMouseMove (animate (fun _ => (1 : ℚ)) (fun _ => 0) 2
      (addTextLabel sampleScene 1)) ⟨10, 20⟩ ⟨100, 50⟩ [1])
    (Follows.move ⟨10, 20⟩ ⟨100, 50⟩ [1]
      (by simp [animate_memberPlanets, addTextLabel_memberPlanets, sampleScene,
        createScene, createSceneWith, MEMBERS, buildPlanets])
      (Follows.frame 2 Follows.refl))

/-- C8, as stated, fails: on the sample scene one frame with `delta = 1` leaves
the angles `1/40, 1/50, 1/60, 1/70`, a second frame leaves
`1/20, 1/25, 1/30, 1/35`, so two frames do not give the state of one; and a
frame also writes `rotation.y`, which goes from `0` to `1/1000`. -/
theorem animate_not_idempotent :
    sampleScene.memberPlanets.map (fun p => p.rotationY) = [0, 0, 0, 0] ∧
    (animate (fun _ => (1 : ℚ)) (fun _ => 0) 1 sampleScene).memberPlanets.map
        (fun p => p.rotationY) = [1 / 1000, 1 / 1000, 1 / 1000, 1 / 1000] ∧
    (animate (fun _ => (1 : ℚ)) (fun _ => 0) 1 sampleScene).memberPlanets.map
        (fun p => p.userData.angle) = [1 / 40, 1 / 50, 1 / 60, 1 / 70] ∧
    (animate (fun _ => (1 : ℚ)) (fun _ => 0) 1
        (animate (fun _ => (1 : ℚ)) (fun _ => 0) 1 sampleScene)).memberPlanets.map
        (fun p => p.userData.angle) = [1 / 20, 1 / 25, 1 / 30, 1 / 35] ∧
    animate (fun _ => (1 : ℚ)) (fun _ => 0) 1
        (animate (fun _ => (1 : ℚ)) (fun _ => 0) 1 sampleScene) ≠
      animate (fun _ => (1 : ℚ)) (fun _ => 0) 1 sampleScene := by
  have h1 : (animate (fun _ => (1 : ℚ)) (fun _ => 0) 1 sampleScene).memberPlanets.map
      (fun p => p.userData.angle) = [1 / 40, 1 / 50, 1 / 60, 1 / 70] := by
    simp only [animate_memberPlanets, sampleScene, createScene, createSceneWith,
      MEMBERS, buildPlanets, buildPlanet, orbit, List.map_cons, List.map_nil]
    norm_num
  have h2 : (animate (fun _ => (1 : ℚ)) (fun _ => 0) 1
      (animate (fun _ => (1 : ℚ)) (fun _ => 0) 1 sampleScene)).memberPlanets.map
      (fun p => p.userData.angle) = [1 / 20, 1 / 25, 1 / 30, 1 / 35] := by
    simp only [animate_memberPlanets, sampleScene, createScene, createSceneWith,
      MEMBERS, buildPlanets, buildPlanet, orbit, List.map_cons, List.map_nil]
    norm_num
  refine ⟨rfl, ?_, h1, h2, ?_⟩
  · simp only [animate_memberPlanets, sampleScene, createScene, createSceneWith,
      MEMBERS, buildPlanets, buildPlanet, orbit, List.map_cons, List.map_nil]
    norm_num
  · intro h
    rw [h, h1] at h2
    norm_num at h2

/-- C8, amended: a frame of `animate` is a function of the scene and `delta`
that is not idempotent: it adds `speed * delta` to each stored angle, derives
`x` and `y` from the new angle and adds `0.001` to each `rotation.y`, so a
second frame adds the same amounts again; and a frame keeps `mouse`,
`hoveredPlanet`, the binding of labels to planets, and each planet's link,
distance, speed, scale, emissive and `position.z`. -/
theorem animate_accumulates (cos sin : K → K) (delta : K) (s : Scene K) :
    (animate cos sin delta s).memberPlanets.map
        (fun p => (p.userData.angle, p.position.x, p.position.y, p.rotationY)) =
      s.memberPlanets.map
        (fun p => (p.userData.angle + p.userData.speed * delta,
          cos (p.userData.angle + p.userData.speed * delta) * p.userData.distance,
          sin (p.userData.angle + p.userData.speed * delta) * p.userData.distance,
          p.rotationY + 0.001)) ∧
    (animate cos sin delta (animate cos sin delta s)).memberPlanets.map
        (fun p => (p.userData.angle, p.rotationY)) =
      s.memberPlanets.map
        (fun p => (p.userData.angle + p.userData.speed * delta +
            p.userData.speed * delta,
          p.rotationY + 0.001 + 0.001)) ∧
    (animate cos sin delta s).mouse = s.mouse ∧
    (animate cos sin delta s).hoveredPlanet = s.hoveredPlanet ∧
    (animate cos sin delta s).labels.map Label.planet =
      s.labels.map Label.planet ∧
    (animate cos sin delta s).memberPlanets.map
        (fun p => (p.userData.link, p.userData.distance, p.userData.speed,
          p.scale, p.emissive, p.position.z)) =
      s.memberPlanets.map
        (fun p => (p.userData.link, p.userData.distance, p.userData.speed,
          p.scale, p.emissive, p.position.z)) := by
  refine ⟨?_, ?_, rfl, rfl, ?_, ?_⟩
  · rw [animate_memberPlanets, List.map_map]
    exact List.map_congr_left (fun p _ => rfl)
  · simp only [animate_memberPlanets, List.map_map]
    exact List.map_congr_left (fun p _ => rfl)
  · simp only [animate]
    exact map_planet_animateLoop cos sin delta 0 s.memberPlanets s.labels
  · rw [animate_memberPlanets, List.map_map]
    exact List.map_congr_left (fun p _ => rfl)

end Claims

end MemberSolarSystem
